import Mathlib

/-!
Shallow embedding of the eye-color notebook
(`src/eye-color-and-23andme-data.ipynb`).

The notebook is a linear script: cell 1 locates and downloads the user's
23andMe file, cell 2 scans its lines for three SNPs and builds
`your_genotype`, cell 4 joins four openSNP datasets into
`genotypes_to_color`, and cell 5 tallies, sorts and renders the eye-color
distribution for the caller's tuple.  Python strings are modelled as
`List Char`, Python dicts as insertion-ordered association lists, and
Python exceptions (`IndexError`, `KeyError`, `NameError`) as `Except` /
`Option` error values.
-/

namespace EyeColor

/-- Characters treated as whitespace by Python's `str.strip()`. -/
def isSpace (c : Char) : Bool :=
  c = ' ' || c = '\t' || c = '\n' || c = '\r' || c = '\x0b' || c = '\x0c'

/-- `line.strip()`: drop leading and trailing whitespace. -/
def strip (l : List Char) : List Char :=
  ((l.dropWhile isSpace).reverse.dropWhile isSpace).reverse

/-- `line.split('\t')`: split at every tab, keeping empty fields; on the
empty string this yields `[[]]`, matching Python's `''.split('\t') = ['']`. -/
def splitTab (l : List Char) : List (List Char) :=
  l.foldr (fun c acc =>
    match acc with
    | a :: rest => if c = '\t' then [] :: a :: rest else (c :: a) :: rest
    | [] => [[c]]) [[]]

/-- `line.startswith('#')`: true when the first character is `'#'`. -/
def startsWithHash (l : List Char) : Bool := l.headD ' ' == '#'

/-- The three keys of the `snps` dict. -/
inductive Snp
  | rs12913832
  | rs16891982
  | rs12203592
  deriving DecidableEq

/-- The record-identifier string of each SNP key. -/
def Snp.rsid : Snp → List Char
  | .rs12913832 => "rs12913832".toList
  | .rs16891982 => "rs16891982".toList
  | .rs12203592 => "rs12203592".toList

/-- `line_data[0] in snps.keys()`, recording which key matched. -/
def keyOf (field0 : List Char) : Option Snp :=
  if field0 = Snp.rsid .rs12913832 then some .rs12913832
  else if field0 = Snp.rsid .rs16891982 then some .rs16891982
  else if field0 = Snp.rsid .rs12203592 then some .rs12203592
  else none

/-- The `snps` dict: three fixed keys, each mapped to `None` (`none`) or a
genotype string. -/
structure SnpState where
  rs12913832 : Option (List Char)
  rs16891982 : Option (List Char)
  rs12203592 : Option (List Char)
  deriving DecidableEq

/-- The initial dict `{'rs12913832': None, 'rs16891982': None, 'rs12203592': None}`. -/
def SnpState.init : SnpState := ⟨none, none, none⟩

/-- Read one entry of the `snps` dict. -/
def SnpState.get (st : SnpState) : Snp → Option (List Char)
  | .rs12913832 => st.rs12913832
  | .rs16891982 => st.rs16891982
  | .rs12203592 => st.rs12203592

/-- `snps[line_data[0]] = line_data[3]`. -/
def SnpState.set (st : SnpState) : Snp → List Char → SnpState
  | .rs12913832, g => { st with rs12913832 := some g }
  | .rs16891982, g => { st with rs16891982 := some g }
  | .rs12203592, g => { st with rs12203592 := some g }

/-- One iteration of the scan loop of cell 2: strip the line, skip it when it
starts with `'#'`, split on tabs, and when field 0 is one of the three SNP
keys store field 3.  `line_data[3]` raises `IndexError` when the line has
fewer than four fields; that exception is modelled as `Except.error ()`. -/
def processLine (st : SnpState) (line : List Char) : Except Unit SnpState :=
  let l := strip line
  if startsWithHash l then .ok st
  else
    let d := splitTab l
    match keyOf (d.headD []) with
    | some t =>
      match d[3]? with
      | some g => .ok (st.set t g)
      | none => .error ()
    | none => .ok st

/-- The `for line in file_23andme` loop: scan the lines in order, an
uncaught exception aborting the scan. -/
def scanLines (st : SnpState) : List (List Char) → Except Unit SnpState
  | [] => .ok st
  | line :: rest =>
    match processLine st line with
    | .ok st' => scanLines st' rest
    | .error e => .error e

/-- The whole extraction of cell 2 over the decoded lines of the file. -/
def extractSnps (lines : List (List Char)) : Except Unit SnpState :=
  scanLines SnpState.init lines

/-- `'{}'.format(x)`: Python formats the value `None` as the string
`"None"` (the display loop prints `'Unknown'` instead, but the tuple is
built with `format`, so its sentinel is `"None"`). -/
def formatOpt : Option (List Char) → List Char
  | none => "None".toList
  | some g => g

/-- `your_genotype = ('{}'.format(snps['rs12203592']),
'{}'.format(snps['rs12913832']), '{}'.format(snps['rs16891982']))`. -/
def your_genotype (st : SnpState) : List Char × List Char × List Char :=
  (formatOpt (st.get .rs12203592), formatOpt (st.get .rs12913832),
   formatOpt (st.get .rs16891982))

/-- C3: the personal file with lines `rs12913832\t15\t1234\tAG`,
`rs16891982\t5\t5678\tGG`, `rs12203592\t6\t9012\tCC` plus the comment line
`#comment` yields the extracted tuple `("CC","AG","GG")`, in the fixed
canonical identifier order (rs12203592, rs12913832, rs16891982); the same
lines in another internal order give the same tuple. -/
theorem c3_scenario_extracts_canonical_tuple :
    (extractSnps ["#comment".toList,
                  "rs12913832\t15\t1234\tAG".toList,
                  "rs16891982\t5\t5678\tGG".toList,
                  "rs12203592\t6\t9012\tCC".toList]).map your_genotype
      = .ok ("CC".toList, "AG".toList, "GG".toList) ∧
    (extractSnps ["rs12203592\t6\t9012\tCC".toList,
                  "rs16891982\t5\t5678\tGG".toList,
                  "#comment".toList,
                  "rs12913832\t15\t1234\tAG".toList]).map your_genotype
      = .ok ("CC".toList, "AG".toList, "GG".toList) := by
  constructor <;> rfl

/-! ### Per-identifier locality of the scan -/

/-- Does this line, once stripped, carry data for target `t`?  (Non-comment
line whose field 0 is `t`'s record identifier.) -/
def lineFor (t : Snp) (line : List Char) : Bool :=
  !startsWithHash (strip line)
    && decide (keyOf ((splitTab (strip line)).headD []) = some t)

/-- The non-comment lines of the input whose field 0 is target `t`. -/
def linesFor (t : Snp) (lines : List (List Char)) : List (List Char) :=
  lines.filter (lineFor t)

/-- Field 3 of a stripped line (`line_data[3]`), when it exists. -/
def lineGenotype (line : List Char) : Option (List Char) :=
  (splitTab (strip line))[3]?

theorem SnpState.get_set_self (st : SnpState) (t : Snp) (g : List Char) :
    (st.set t g).get t = some g := by
  cases t <;> rfl

theorem SnpState.get_set_ne (st : SnpState) {t u : Snp} (g : List Char)
    (h : u ≠ t) : (st.set t g).get u = st.get u := by
  cases t <;> cases u <;> first | rfl | exact absurd rfl h

theorem processLine_comment {line : List Char} (st : SnpState)
    (h : startsWithHash (strip line) = true) : processLine st line = .ok st := by
  simp only [processLine]
  rw [if_pos h]

theorem processLine_nokey {line : List Char} (st : SnpState)
    (hc : ¬ startsWithHash (strip line) = true)
    (hk : keyOf ((splitTab (strip line)).headD []) = none) :
    processLine st line = .ok st := by
  simp only [processLine]
  rw [if_neg hc, hk]

theorem processLine_hit {line : List Char} (st : SnpState) {u : Snp}
    {g : List Char}
    (hc : ¬ startsWithHash (strip line) = true)
    (hk : keyOf ((splitTab (strip line)).headD []) = some u)
    (hg : (splitTab (strip line))[3]? = some g) :
    processLine st line = .ok (st.set u g) := by
  simp only [processLine]
  rw [if_neg hc, hk, hg]

theorem processLine_indexerr {line : List Char} (st : SnpState) {u : Snp}
    (hc : ¬ startsWithHash (strip line) = true)
    (hk : keyOf ((splitTab (strip line)).headD []) = some u)
    (hg : (splitTab (strip line))[3]? = none) :
    processLine st line = .error () := by
  simp only [processLine]
  rw [if_neg hc, hk, hg]

theorem lineFor_false_comment {line : List Char} (t : Snp)
    (h : startsWithHash (strip line) = true) : lineFor t line = false := by
  simp [lineFor, h]

theorem lineFor_of_key {line : List Char} (t : Snp)
    (hc : ¬ startsWithHash (strip line) = true) :
    lineFor t line
      = decide (keyOf ((splitTab (strip line)).headD []) = some t) := by
  simp only [lineFor]
  rw [Bool.not_eq_true] at hc
  rw [hc]
  simp

/-- What the scan leaves in entry `t` is determined by the lines for `t`
alone: the value after a successful scan is the fold of `lineGenotype` over
`linesFor t lines`, started from the incoming entry. -/
theorem scanLines_get (t : Snp) :
    ∀ (lines : List (List Char)) (st st' : SnpState),
      scanLines st lines = .ok st' →
      st'.get t
        = (linesFor t lines).foldl (fun _ line => lineGenotype line) (st.get t)
  | [], st, st', h => by
    simp only [scanLines] at h
    cases h
    simp [linesFor]
  | line :: rest, st, st', h => by
    rw [scanLines] at h
    by_cases hc : startsWithHash (strip line) = true
    · rw [processLine_comment st hc] at h
      have hl : lineFor t line = false := lineFor_false_comment t hc
      simpa [linesFor, List.filter_cons, hl] using
        scanLines_get t rest st st' h
    · rcases hk : keyOf ((splitTab (strip line)).headD []) with _ | u
      · rw [processLine_nokey st hc hk] at h
        have hl : lineFor t line = false := by
          rw [lineFor_of_key t hc, hk]
          simp
        simpa [linesFor, List.filter_cons, hl] using
          scanLines_get t rest st st' h
      · rcases hg : (splitTab (strip line))[3]? with _ | g
        · rw [processLine_indexerr st hc hk hg] at h
          cases h
        · rw [processLine_hit st hc hk hg] at h
          by_cases htu : u = t
          · have hl : lineFor t line = true := by
              rw [lineFor_of_key t hc, hk, htu]
              simp
            have hgen : (st.set u g).get t = lineGenotype line := by
              rw [htu, SnpState.get_set_self, lineGenotype, hg]
            have ih := scanLines_get t rest (st.set u g) st' h
            rw [hgen] at ih
            simpa [linesFor, List.filter_cons, hl] using ih
          · have hl : lineFor t line = false := by
              rw [lineFor_of_key t hc, hk]
              simpa using htu
            have hgen : (st.set u g).get t = st.get t :=
              SnpState.get_set_ne st g (fun he => htu he.symm)
            have ih := scanLines_get t rest (st.set u g) st' h
            rw [hgen] at ih
            simpa [linesFor, List.filter_cons, hl] using ih

/-- A fold that ignores its accumulator returns the image of the last
element, or the start value on the empty list. -/
theorem foldl_lastVal (a : Option (List Char)) :
    ∀ L : List (List Char),
      L.foldl (fun _ line => lineGenotype line) a
        = match L.getLast? with
          | none => a
          | some l => lineGenotype l
  | [] => rfl
  | [x] => rfl
  | x :: y :: L => by
    have ih := foldl_lastVal (lineGenotype x) (y :: L)
    simpa [List.foldl_cons, List.getLast?] using ih

theorem SnpState.get_init (t : Snp) : SnpState.init.get t = none := by
  cases t <;> rfl

/-- C8: when a target identifier appears on several non-comment lines, a
successful scan leaves the genotype of the last such occurrence in the
`snps` dict — each matching line simply overwrites the entry during the
single forward pass. -/
theorem c8_last_occurrence_wins (lines : List (List Char)) (t : Snp)
    (st' : SnpState) (lastLine : List Char)
    (hok : extractSnps lines = .ok st')
    (_hmulti : 2 ≤ (linesFor t lines).length)
    (hlast : (linesFor t lines).getLast? = some lastLine) :
    st'.get t = lineGenotype lastLine := by
  have h := scanLines_get t lines SnpState.init st' hok
  rw [foldl_lastVal, hlast] at h
  exact h

/-- Witness for C8 at a file whose two data lines both carry rs12913832:
the extracted value is that of the second (last) line, `"GG"`. -/
theorem c8_last_occurrence_wins_witness :
    SnpState.get ⟨some "GG".toList, none, none⟩ .rs12913832
      = lineGenotype "rs12913832\t15\t1234\tGG".toList :=
  c8_last_occurrence_wins
    ["rs12913832\t15\t1234\tAG".toList, "rs12913832\t15\t1234\tGG".toList]
    .rs12913832 ⟨some "GG".toList, none, none⟩
    "rs12913832\t15\t1234\tGG".toList (by rfl) (by decide) (by rfl)

/-- C4: when exactly one target identifier never occurs in the personal
data, a successful extraction leaves `None` in that identifier's entry —
the tuple shows the sentinel string `"None"` there (the notebook's
`'{}'.format(None)`; the printed table shows `'Unknown'`) — and every other
identifier's entry still equals the genotype of the last line carrying that
identifier, unaffected by the missing one. -/
theorem c4_missing_identifier_yields_sentinel (lines : List (List Char))
    (t : Snp) (st' : SnpState)
    (hok : extractSnps lines = .ok st')
    (hmissing : linesFor t lines = [])
    (_hothers : ∀ u : Snp, u ≠ t → linesFor u lines ≠ []) :
    st'.get t = none ∧ formatOpt (st'.get t) = "None".toList ∧
      ∀ u : Snp, u ≠ t → ∀ lastLine : List Char,
        (linesFor u lines).getLast? = some lastLine →
        st'.get u = lineGenotype lastLine := by
  have h := scanLines_get t lines SnpState.init st' hok
  rw [hmissing, List.foldl_nil, SnpState.get_init] at h
  refine ⟨h, by rw [h]; rfl, ?_⟩
  intro u _ lastLine hlast
  have hu := scanLines_get u lines SnpState.init st' hok
  rw [foldl_lastVal, hlast] at hu
  exact hu

/-- Witness for C4 at a file carrying rs12913832 and rs16891982 but no
rs12203592 line. -/
theorem c4_missing_identifier_yields_sentinel_witness :
    SnpState.get ⟨some "AG".toList, some "GG".toList, none⟩ .rs12203592 = none ∧
      formatOpt (SnpState.get ⟨some "AG".toList, some "GG".toList, none⟩
        .rs12203592) = "None".toList ∧
      ∀ u : Snp, u ≠ .rs12203592 → ∀ lastLine : List Char,
        (linesFor u ["rs12913832\t15\t1234\tAG".toList,
                     "rs16891982\t5\t5678\tGG".toList]).getLast? = some lastLine →
        SnpState.get ⟨some "AG".toList, some "GG".toList, none⟩ u
          = lineGenotype lastLine :=
  c4_missing_identifier_yields_sentinel
    ["rs12913832\t15\t1234\tAG".toList, "rs16891982\t5\t5678\tGG".toList]
    .rs12203592 ⟨some "AG".toList, some "GG".toList, none⟩
    (by rfl) (by rfl)
    (fun u hu => by cases u <;> first | exact absurd rfl hu | decide)

/-! ### Comment lines -/

theorem startsWithHash_dropTrailing :
    ∀ xs : List Char,
      startsWithHash (((xs ++ ['#']).dropWhile isSpace).reverse) = true
  | [] => by simp [startsWithHash, isSpace]
  | x :: xs => by
    rw [List.cons_append, List.dropWhile_cons]
    by_cases hx : isSpace x = true
    · rw [if_pos hx]
      exact startsWithHash_dropTrailing xs
    · rw [if_neg hx]
      simp [startsWithHash, List.reverse_append]

/-- A line starting with `'#'` still starts with `'#'` after `strip`. -/
theorem startsWithHash_strip {l : List Char}
    (h : startsWithHash l = true) : startsWithHash (strip l) = true := by
  match l, h with
  | c :: cs, h =>
    have hc : c = '#' := by simpa [startsWithHash] using h
    subst hc
    have hdrop : ('#' :: cs).dropWhile isSpace = '#' :: cs := by
      rw [List.dropWhile_cons, if_neg (by simp [isSpace])]
    rw [strip, hdrop, List.reverse_cons]
    exact startsWithHash_dropTrailing cs.reverse

theorem scanLines_filter_comments :
    ∀ (lines : List (List Char)) (st : SnpState),
      scanLines st (lines.filter (fun l => !startsWithHash l))
        = scanLines st lines
  | [], _ => rfl
  | line :: rest, st => by
    by_cases hc : startsWithHash line = true
    · have hdrop : (line :: rest).filter (fun l => !startsWithHash l)
          = rest.filter (fun l => !startsWithHash l) := by
        simp [List.filter_cons, hc]
      rw [hdrop, scanLines, processLine_comment st (startsWithHash_strip hc)]
      exact scanLines_filter_comments rest st
    · have hkeep : (line :: rest).filter (fun l => !startsWithHash l)
          = line :: rest.filter (fun l => !startsWithHash l) := by
        simp [List.filter_cons, hc]
      rw [hkeep, scanLines, scanLines]
      cases hp : processLine st line with
      | ok st₁ => exact scanLines_filter_comments rest st₁
      | error e => rfl

/-- C9: lines beginning with the comment marker `'#'` are skipped and never
influence any extracted genotype value — extraction on the input with all
comment lines removed gives the same result (the same `snps` dict, or the
same raised exception) as on the full input. -/
theorem c9_comment_lines_never_influence (lines : List (List Char)) :
    extractSnps (lines.filter (fun l => !startsWithHash l))
      = extractSnps lines :=
  scanLines_filter_comments lines SnpState.init

/-! ### Cell 1: locating the personal-data file -/

/-- One entry of `user['data']` as cell 1 reads it. -/
structure OHEntry where
  source : String
  tags : List String
  download_url : String
  deriving DecidableEq

/-- Cell 1's loop with `break`: the first entry whose source is
`"direct-sharing-128"` and whose metadata tags do not contain `"vcf"`
assigns `file_url_23andme`; no qualifying entry leaves it unassigned. -/
def file_url_23andme? (entries : List OHEntry) : Option String :=
  (entries.find?
    (fun e => e.source == "direct-sharing-128" && !(e.tags.contains "vcf"))).map
    (fun e => e.download_url)

/-- The message printed by cell 1's `if 'file_url_23andme' not in locals()`
branch. -/
def cell1Message (entries : List OHEntry) : String :=
  match file_url_23andme? entries with
  | none =>
      "Sorry, you first need to add 23andMe data to Open Humans!\nYou can do that here: https://www.openhumans.org/activity/23andme-upload/"
  | some _ =>
      "Great, you have 23andMe data in Open Humans! We'll retrieve this...\n"

/-- After the `if`/`else`, cell 1 unconditionally evaluates
`requests.get(file_url_23andme)`: when the loop never assigned that name
the expression raises `NameError` and the cell aborts; otherwise the
download proceeds with the found url. -/
def cell1Fetch (entries : List OHEntry) : Except String String :=
  match file_url_23andme? entries with
  | none => .error "NameError: name 'file_url_23andme' is not defined"
  | some url => .ok url

/-- C2 (code bug): with no qualifying entry — here an empty `user['data']`
and a `"direct-sharing-128"` entry tagged `vcf` — cell 1 does print the
instructional message, but it does not stop: it still evaluates
`requests.get(file_url_23andme)` and the cell crashes with `NameError`
instead of exiting cleanly. -/
theorem c2_missing_file_prints_then_crashes :
    cell1Message []
      = "Sorry, you first need to add 23andMe data to Open Humans!\nYou can do that here: https://www.openhumans.org/activity/23andme-upload/" ∧
    cell1Fetch [] = .error "NameError: name 'file_url_23andme' is not defined" ∧
    cell1Fetch [⟨"direct-sharing-128", ["vcf"], "http://example.org/f"⟩]
      = .error "NameError: name 'file_url_23andme' is not defined" ∧
    cell1Fetch [⟨"direct-sharing-128", [], "http://example.org/f"⟩]
      = .ok "http://example.org/f" := by
  refine ⟨rfl, rfl, rfl, rfl⟩

/-! ### Python dicts as insertion-ordered association lists -/

/-- Membership test `k in d` for the dict model. -/
def dmem {κ α : Type} [DecidableEq κ] (d : List (κ × α)) (k : κ) : Bool :=
  d.any (fun p => decide (p.1 = k))

/-- `d[k] = v`: update the entry in place when the key exists, append a new
entry at the end otherwise — Python dicts preserve insertion order. -/
def dset {κ α : Type} [DecidableEq κ] (d : List (κ × α)) (k : κ) (v : α) :
    List (κ × α) :=
  if dmem d k then d.map (fun p => if p.1 = k then (p.1, v) else p)
  else d ++ [(k, v)]

/-- `d[k]` as an `Option`; `none` models the raised `KeyError`. -/
def dget? {κ α : Type} [DecidableEq κ] (d : List (κ × α)) (k : κ) : Option α :=
  (d.find? (fun p => decide (p.1 = k))).map (fun p => p.2)

/-- `d.keys()` in iteration order. -/
def dkeys {κ α : Type} (d : List (κ × α)) : List κ := d.map (fun p => p.1)

/-! ### Cell 4: the openSNP datasets and the genotype index -/

/-- `s.lower()`: lower-case the string character by character. -/
def pyLower (s : String) : String := ⟨s.data.map Char.toLower⟩

/-- One record of the eye-color survey JSON: its `user_id` and `variation`
fields. -/
structure EyeColorUser where
  user_id : Nat
  variation : String
  deriving DecidableEq

/-- One record of a per-SNP openSNP JSON: `user.id` and the list of
`local_genotype` values of `user.genotypes`. -/
structure GenoRecord where
  id : Nat
  genotypes : List String
  deriving DecidableEq

/-- `eyecolor_by_uid = {item['user_id']: item['variation'].lower() for item
in opensnp_eyecolors['users']}`. -/
def eyecolor_by_uid (users : List EyeColorUser) : List (Nat × String) :=
  users.foldl (fun d u => dset d u.user_id (pyLower u.variation)) []

/-- The per-SNP dict comprehension: keep records with a non-empty
`genotypes` list and map the id to the first observation's
`local_genotype`. -/
def genotype_by_uid (records : List GenoRecord) : List (Nat × String) :=
  records.foldl (fun d r =>
    match r.genotypes.head? with
    | some g => dset d r.id g
    | none => d) []

/-- `joint_uids`: the uids of the eye-color dict also present in all three
per-SNP dicts, in eye-color iteration order. -/
def joint_uids (ec d3592 d12913832 d16891982 : List (Nat × String)) :
    List Nat :=
  (dkeys ec).filter
    (fun uid => dmem d3592 uid && dmem d12913832 uid && dmem d16891982 uid)

/-- A genotype 3-tuple in the fixed order (rs12203592, rs12913832,
rs16891982). -/
abbrev GTuple := String × String × String

/-- One subject's tuple, read out of the three per-SNP dicts. -/
def subjectTuple (d3592 d12913832 d16891982 : List (Nat × String))
    (uid : Nat) : GTuple :=
  ((dget? d3592 uid).getD "", (dget? d12913832 uid).getD "",
   (dget? d16891982 uid).getD "")

/-- Appending one eye color to the bucket of a tuple, creating the bucket
when absent (`genotypes_to_color[genotype].append(...)` / `= [...]`). -/
def indexAppend (idx : List (GTuple × List String)) (g : GTuple)
    (c : String) : List (GTuple × List String) :=
  if dmem idx g then idx.map (fun p => if p.1 = g then (p.1, p.2 ++ [c]) else p)
  else idx ++ [(g, [c])]

/-- The loop over `joint_uids` that fills `genotypes_to_color`. -/
def buildIndex (ec d3592 d12913832 d16891982 : List (Nat × String))
    (uids : List Nat) : List (GTuple × List String) :=
  uids.foldl (fun idx uid =>
    indexAppend idx (subjectTuple d3592 d12913832 d16891982 uid)
      ((dget? ec uid).getD "")) []

/-- Cell 4 end to end: from the four parsed datasets to
`genotypes_to_color`. -/
def genotypes_to_color (ecUsers : List EyeColorUser)
    (r3592 r12913832 r16891982 : List GenoRecord) :
    List (GTuple × List String) :=
  let ec := eyecolor_by_uid ecUsers
  let d3592 := genotype_by_uid r3592
  let d12913832 := genotype_by_uid r12913832
  let d16891982 := genotype_by_uid r16891982
  buildIndex ec d3592 d12913832 d16891982
    (joint_uids ec d3592 d12913832 d16891982)

/-! ### Cell 5: tallying, sorting and the percentage table -/

/-- One iteration of the `color_counts` tally loop: the first occurrence
of a label appends a new entry with count 1, later ones increment it in
place. -/
def tallyStep (cc : List (String × Nat)) (c : String) : List (String × Nat) :=
  if dmem cc c then cc.map (fun p => if p.1 = c then (p.1, p.2 + 1) else p)
  else cc ++ [(c, 1)]

/-- The whole tally loop over `genotypes_to_color[your_genotype]`. -/
def tally (colors : List String) : List (String × Nat) :=
  colors.foldl tallyStep []

/-- Insert an entry into a descending-by-count list: after every entry with
a strictly larger count, before the first with a smaller-or-equal one. -/
def insertDesc (p : String × Nat) :
    List (String × Nat) → List (String × Nat)
  | [] => [p]
  | q :: rest => if p.2 < q.2 then q :: insertDesc p rest else p :: q :: rest

/-- `sorted(list(color_counts.items()), key=lambda x: x[1], reverse=True)`:
Python's `sorted` is a stable sort, and with `reverse=True` equal keys still
keep their original order; a stable descending sort's output is uniquely
determined by its input, so this structurally recursive stable insertion
sort computes the same list. -/
def sortDesc : List (String × Nat) → List (String × Nat)
  | [] => []
  | p :: rest => insertDesc p (sortDesc rest)

/-- The rebound `color_counts`: the tally, sorted descending by count. -/
def color_counts (colors : List String) : List (String × Nat) :=
  sortDesc (tally colors)

/-- `color_count_sum = sum([item[1] for item in color_counts])`. -/
def color_count_sum (colors : List String) : Nat :=
  ((color_counts colors).map (fun p => p.2)).sum

/-- `color_count_percentages = [(item[0], item[1]/color_count_sum) ...]`,
the float division taken over `ℚ`. -/
def color_count_percentages (colors : List String) : List (String × ℚ) :=
  (color_counts colors).map
    (fun p => (p.1, (p.2 : ℚ) / (color_count_sum colors : ℚ)))

/-- Cell 5's entry point: `genotypes_to_color[your_genotype]` raises
`KeyError` (modelled `none`) when the tuple is not a key; otherwise the
distribution and the total match count are computed. -/
def report (idx : List (GTuple × List String)) (g : GTuple) :
    Option (List (String × ℚ) × Nat) :=
  (dget? idx g).map (fun colors =>
    (color_count_percentages colors, color_count_sum colors))

/-! ### Dict lemmas -/

theorem mem_dset {κ α : Type} [DecidableEq κ] {d : List (κ × α)} {k : κ}
    {v : α} {p : κ × α} (h : p ∈ dset d k v) : p ∈ d ∨ p = (k, v) := by
  rw [dset] at h
  by_cases hm : dmem d k = true
  · rw [if_pos hm] at h
    obtain ⟨q, hq, hfq⟩ := List.mem_map.mp h
    by_cases hqk : q.1 = k
    · right
      rw [if_pos hqk] at hfq
      rw [← hfq, hqk]
    · left
      rw [if_neg hqk] at hfq
      rw [← hfq]
      exact hq
  · rw [if_neg hm] at h
    rcases List.mem_append.mp h with h | h
    · exact Or.inl h
    · exact Or.inr (by simpa using h)

theorem dget?_mem {κ α : Type} [DecidableEq κ] {d : List (κ × α)} {k : κ}
    {v : α} (h : dget? d k = some v) : (k, v) ∈ d := by
  rw [dget?] at h
  cases hf : d.find? (fun p => decide (p.1 = k)) with
  | none => rw [hf] at h; cases h
  | some q =>
    rw [hf] at h
    have hv : q.2 = v := by simpa using h
    have hmem := List.mem_of_find?_eq_some hf
    have hkey : q.1 = k := by simpa using List.find?_some hf
    cases q with
    | mk a b =>
      simp only at hkey hv
      rw [← hkey, ← hv]
      exact hmem

theorem dget?_isSome_of_dmem {κ α : Type} [DecidableEq κ]
    {d : List (κ × α)} {k : κ} (h : dmem d k = true) :
    ∃ v, dget? d k = some v := by
  rw [dmem, List.any_eq_true] at h
  obtain ⟨p, hp, hpk⟩ := h
  have hs : (d.find? (fun p => decide (p.1 = k))).isSome :=
    List.find?_isSome.mpr ⟨p, hp, hpk⟩
  cases hf : d.find? (fun p => decide (p.1 = k)) with
  | none => rw [hf] at hs; cases hs
  | some q => exact ⟨q.2, by rw [dget?, hf]; rfl⟩

theorem dmem_of_mem_dkeys {κ α : Type} [DecidableEq κ] {d : List (κ × α)}
    {k : κ} (h : k ∈ dkeys d) : dmem d k = true := by
  rw [dkeys] at h
  obtain ⟨p, hp, hpk⟩ := List.mem_map.mp h
  rw [dmem, List.any_eq_true]
  exact ⟨p, hp, by simp [hpk]⟩

/-! ### C1: a tuple absent from the index -/

/-- C1 (amended): when the caller's tuple is not a key of
`genotypes_to_color`, the lookup raises `KeyError` — the reporter fails
instead of returning a zero-match result. -/
theorem c1_missing_tuple_raises_keyerror (idx : List (GTuple × List String))
    (g : GTuple) (h : dget? idx g = none) : report idx g = none := by
  rw [report, h]
  rfl

/-- Witness for the amended C1: a one-bucket index and an absent tuple. -/
theorem c1_missing_tuple_raises_keyerror_witness :
    report [(("CC", "AG", "GG"), ["brown"])] ("AA", "AA", "AA") = none :=
  c1_missing_tuple_raises_keyerror [(("CC", "AG", "GG"), ["brown"])]
    ("AA", "AA", "AA") rfl

/-- C1 (counterexample): for the index built from the single subject 42
(color "Brown", genotypes CC / AG / GG) and the absent tuple
`("AA","AA","AA")`, the reporter does not return the zero-match result
`([], 0)`: the lookup is a `KeyError` (`none`), so the claimed non-error
outcome is false on the code. -/
theorem c1_zero_match_claim_false :
    dget? (genotypes_to_color [⟨42, "Brown"⟩] [⟨42, ["CC"]⟩] [⟨42, ["AG"]⟩]
      [⟨42, ["GG"]⟩]) ("AA", "AA", "AA") = none ∧
    report (genotypes_to_color [⟨42, "Brown"⟩] [⟨42, ["CC"]⟩] [⟨42, ["AG"]⟩]
      [⟨42, ["GG"]⟩]) ("AA", "AA", "AA") ≠ some ([], 0) := by
  have h : report (genotypes_to_color [⟨42, "Brown"⟩] [⟨42, ["CC"]⟩]
      [⟨42, ["AG"]⟩] [⟨42, ["GG"]⟩]) ("AA", "AA", "AA") = none := rfl
  exact ⟨rfl, by rw [h]; exact fun hEq => Option.noConfusion hEq⟩

/-! ### Provenance of the genotype index -/

theorem mem_indexAppend {idx : List (GTuple × List String)} {g : GTuple}
    {c : String} {q : GTuple × List String} (h : q ∈ indexAppend idx g c) :
    q ∈ idx ∨
      (∃ colors₀, (q.1, colors₀) ∈ idx ∧ q.1 = g ∧ q.2 = colors₀ ++ [c]) ∨
      q = (g, [c]) := by
  rw [indexAppend] at h
  by_cases hm : dmem idx g = true
  · rw [if_pos hm] at h
    obtain ⟨p, hp, hfp⟩ := List.mem_map.mp h
    by_cases hpg : p.1 = g
    · rw [if_pos hpg] at hfp
      refine Or.inr (Or.inl ⟨p.2, ?_, ?_, ?_⟩)
      · rw [← hfp]; simpa using hp
      · rw [← hfp]; exact hpg
      · rw [← hfp]
    · rw [if_neg hpg] at hfp
      rw [← hfp]
      exact Or.inl hp
  · rw [if_neg hm] at h
    rcases List.mem_append.mp h with h | h
    · exact Or.inl h
    · exact Or.inr (Or.inr (by simpa using h))

/-- Every label of every bucket of the index-building fold comes from the
starting accumulator or from one of the processed uids. -/
theorem mem_buildIndex_go (ec d3592 d12913832 d16891982 : List (Nat × String)) :
    ∀ (uids : List Nat) (idx : List (GTuple × List String))
      (p : GTuple × List String) (c : String),
      p ∈ uids.foldl (fun idx uid =>
        indexAppend idx (subjectTuple d3592 d12913832 d16891982 uid)
          ((dget? ec uid).getD "")) idx →
      c ∈ p.2 →
      (∃ q ∈ idx, q.1 = p.1 ∧ c ∈ q.2) ∨
      (∃ uid ∈ uids, subjectTuple d3592 d12913832 d16891982 uid = p.1 ∧
        (dget? ec uid).getD "" = c)
  | [], idx, p, c, hp, hc => Or.inl ⟨p, hp, rfl, hc⟩
  | uid :: rest, idx, p, c, hp, hc => by
    rcases mem_buildIndex_go ec d3592 d12913832 d16891982 rest
        (indexAppend idx (subjectTuple d3592 d12913832 d16891982 uid)
          ((dget? ec uid).getD "")) p c hp hc with
      ⟨q, hq, hq1, hqc⟩ | ⟨u, hu, hut, huc⟩
    · rcases mem_indexAppend hq with hq' | ⟨colors₀, hc₀, hkey, hval⟩ | hnew
      · exact Or.inl ⟨q, hq', hq1, hqc⟩
      · rw [hval] at hqc
        rcases List.mem_append.mp hqc with hqc | hqc
        · exact Or.inl ⟨(q.1, colors₀), hc₀, hq1, hqc⟩
        · refine Or.inr ⟨uid, List.mem_cons_self uid rest, ?_, ?_⟩
          · rw [← hq1, ← hkey]
          · exact (List.mem_singleton.mp hqc).symm
      · refine Or.inr ⟨uid, List.mem_cons_self uid rest, ?_, ?_⟩
        · rw [← hq1, hnew]
        · rw [hnew] at hqc
          exact (List.mem_singleton.mp hqc).symm
    · exact Or.inr ⟨u, List.mem_cons_of_mem uid hu, hut, huc⟩

/-- Every entry of the per-SNP dict comes from a dataset record with that
id, a non-empty observation list, and the first observation as value. -/
theorem mem_genotype_by_uid_go :
    ∀ (records : List GenoRecord) (acc : List (Nat × String))
      (p : Nat × String),
      p ∈ records.foldl (fun d r =>
        match r.genotypes.head? with
        | some g => dset d r.id g
        | none => d) acc →
      p ∈ acc ∨ ∃ rec ∈ records, rec.id = p.1 ∧ rec.genotypes.head? = some p.2
  | [], _, _, hp => Or.inl hp
  | r :: rs, acc, p, hp => by
    rcases mem_genotype_by_uid_go rs _ p hp with hstep | ⟨rec, hrec, h1, h2⟩
    · cases hh : r.genotypes.head? with
      | none =>
        simp only [hh] at hstep
        exact Or.inl hstep
      | some g =>
        simp only [hh] at hstep
        rcases mem_dset hstep with hacc | hnew
        · exact Or.inl hacc
        · refine Or.inr ⟨r, List.mem_cons_self r rs, ?_, ?_⟩
          · rw [hnew]
          · rw [hnew, hh]
    · exact Or.inr ⟨rec, List.mem_cons_of_mem r hrec, h1, h2⟩

theorem genotype_by_uid_provenance {records : List GenoRecord} {uid : Nat}
    {v : String} (h : dget? (genotype_by_uid records) uid = some v) :
    ∃ rec ∈ records, rec.id = uid ∧ rec.genotypes.head? = some v := by
  have hmem := dget?_mem h
  rcases mem_genotype_by_uid_go records [] (uid, v) hmem with hnil | hgood
  · cases hnil
  · exact hgood

/-- Every entry of the eye-color dict comes from a survey record with that
id, its value the lower-cased variation. -/
theorem mem_eyecolor_by_uid_go :
    ∀ (users : List EyeColorUser) (acc : List (Nat × String))
      (p : Nat × String),
      p ∈ users.foldl (fun d u => dset d u.user_id (pyLower u.variation)) acc →
      p ∈ acc ∨ ∃ u ∈ users, u.user_id = p.1 ∧ p.2 = pyLower u.variation
  | [], _, _, hp => Or.inl hp
  | u :: us, acc, p, hp => by
    rcases mem_eyecolor_by_uid_go us _ p hp with hstep | ⟨w, hw, h1, h2⟩
    · rcases mem_dset hstep with hacc | hnew
      · exact Or.inl hacc
      · refine Or.inr ⟨u, List.mem_cons_self u us, ?_, ?_⟩
        · rw [hnew]
        · rw [hnew]
    · exact Or.inr ⟨w, List.mem_cons_of_mem u hw, h1, h2⟩

theorem eyecolor_by_uid_provenance {users : List EyeColorUser} {uid : Nat}
    {v : String} (h : dget? (eyecolor_by_uid users) uid = some v) :
    ∃ u ∈ users, u.user_id = uid ∧ v = pyLower u.variation := by
  have hmem := dget?_mem h
  rcases mem_eyecolor_by_uid_go users [] (uid, v) hmem with hnil | ⟨u, hu, h1, h2⟩
  · cases hnil
  · exact ⟨u, hu, h1, h2⟩

/-- C5: a subject's eye-color label lands in a genotype-tuple bucket only
when the subject appears in the eye-color dataset and has a non-empty
genotype-observation list in each of the three per-SNP datasets; the
bucket's tuple components are first observations of records for that
subject, and the label is the subject's lower-cased survey answer. -/
theorem c5_bucket_requires_all_four_sources (ecUsers : List EyeColorUser)
    (r3592 r12913832 r16891982 : List GenoRecord) (g : GTuple)
    (colors : List String) (c : String)
    (hg : dget? (genotypes_to_color ecUsers r3592 r12913832 r16891982) g
      = some colors)
    (hc : c ∈ colors) :
    ∃ uid : Nat,
      (∃ u ∈ ecUsers, u.user_id = uid ∧ c = pyLower u.variation) ∧
      (∃ rec ∈ r3592, rec.id = uid ∧ rec.genotypes.head? = some g.1) ∧
      (∃ rec ∈ r12913832, rec.id = uid ∧ rec.genotypes.head? = some g.2.1) ∧
      (∃ rec ∈ r16891982, rec.id = uid ∧ rec.genotypes.head? = some g.2.2) := by
  rw [genotypes_to_color] at hg
  have hmem := dget?_mem hg
  rcases mem_buildIndex_go (eyecolor_by_uid ecUsers) (genotype_by_uid r3592)
      (genotype_by_uid r12913832) (genotype_by_uid r16891982) _ [] (g, colors)
      c hmem hc with ⟨q, hq, _, _⟩ | ⟨uid, huid, htup, hcol⟩
  · cases hq
  · rw [joint_uids, List.mem_filter] at huid
    obtain ⟨hkeys, hcond⟩ := huid
    have hcond' := hcond
    rw [Bool.and_eq_true, Bool.and_eq_true] at hcond'
    obtain ⟨⟨h1, h2⟩, h3⟩ := hcond'
    obtain ⟨v1, hv1⟩ := dget?_isSome_of_dmem h1
    obtain ⟨v2, hv2⟩ := dget?_isSome_of_dmem h2
    obtain ⟨v3, hv3⟩ := dget?_isSome_of_dmem h3
    obtain ⟨w, hw⟩ := dget?_isSome_of_dmem (dmem_of_mem_dkeys hkeys)
    rw [subjectTuple, hv1, hv2, hv3] at htup
    rw [hw] at hcol
    simp only [Option.getD_some] at htup hcol
    refine ⟨uid, ?_, ?_, ?_, ?_⟩
    · obtain ⟨u, hu, hu1, hu2⟩ := eyecolor_by_uid_provenance hw
      exact ⟨u, hu, hu1, by rw [← hcol, hu2]⟩
    · have := genotype_by_uid_provenance hv1
      rw [← htup]
      simpa using this
    · have := genotype_by_uid_provenance hv2
      rw [← htup]
      simpa using this
    · have := genotype_by_uid_provenance hv3
      rw [← htup]
      simpa using this

/-- Witness for C5 at the one-subject datasets of the spec scenario. -/
theorem c5_bucket_requires_all_four_sources_witness :
    ∃ uid : Nat,
      (∃ u ∈ [EyeColorUser.mk 42 "Brown"], u.user_id = uid ∧
        "brown" = pyLower u.variation) ∧
      (∃ rec ∈ [GenoRecord.mk 42 ["CC"]], rec.id = uid ∧
        rec.genotypes.head? = some "CC") ∧
      (∃ rec ∈ [GenoRecord.mk 42 ["AG"]], rec.id = uid ∧
        rec.genotypes.head? = some "AG") ∧
      (∃ rec ∈ [GenoRecord.mk 42 ["GG"]], rec.id = uid ∧
        rec.genotypes.head? = some "GG") :=
  c5_bucket_requires_all_four_sources [⟨42, "Brown"⟩] [⟨42, ["CC"]⟩]
    [⟨42, ["AG"]⟩] [⟨42, ["GG"]⟩] ("CC", "AG", "GG") ["brown"] "brown"
    (by rfl) (by simp)

/-! ### Tally lemmas -/

theorem tallyStep_ne_nil (cc : List (String × Nat)) (c : String) :
    tallyStep cc c ≠ [] := by
  rw [tallyStep]
  by_cases h : dmem cc c = true
  · rw [if_pos h]
    intro hnil
    rw [List.map_eq_nil_iff] at hnil
    subst hnil
    simp [dmem] at h
  · rw [if_neg h]
    simp

theorem foldl_tallyStep_ne_nil :
    ∀ (cs : List String) (acc : List (String × Nat)), acc ≠ [] →
      cs.foldl tallyStep acc ≠ []
  | [], _, h => h
  | c :: cs, acc, _ =>
    foldl_tallyStep_ne_nil cs (tallyStep acc c) (tallyStep_ne_nil acc c)

theorem tally_ne_nil {colors : List String} (h : colors ≠ []) :
    tally colors ≠ [] := by
  cases colors with
  | nil => exact absurd rfl h
  | cons c cs =>
    rw [tally, List.foldl_cons]
    exact foldl_tallyStep_ne_nil cs (tallyStep [] c) (tallyStep_ne_nil [] c)

theorem tallyStep_pos {cc : List (String × Nat)} {c : String}
    (h : ∀ p ∈ cc, 0 < p.2) : ∀ p ∈ tallyStep cc c, 0 < p.2 := by
  intro p hp
  rw [tallyStep] at hp
  by_cases hm : dmem cc c = true
  · rw [if_pos hm] at hp
    obtain ⟨q, hq, hfq⟩ := List.mem_map.mp hp
    by_cases hqc : q.1 = c
    · rw [if_pos hqc] at hfq
      rw [← hfq]
      exact Nat.succ_pos _
    · rw [if_neg hqc] at hfq
      rw [← hfq]
      exact h q hq
  · rw [if_neg hm] at hp
    rcases List.mem_append.mp hp with hp | hp
    · exact h p hp
    · have hpc : p = (c, 1) := by simpa using hp
      rw [hpc]
      exact Nat.one_pos

theorem foldl_tallyStep_pos :
    ∀ (cs : List String) (acc : List (String × Nat)),
      (∀ p ∈ acc, 0 < p.2) → ∀ p ∈ cs.foldl tallyStep acc, 0 < p.2
  | [], _, h => h
  | c :: cs, acc, h => foldl_tallyStep_pos cs (tallyStep acc c) (tallyStep_pos h)

theorem tally_counts_pos {colors : List String} :
    ∀ p ∈ tally colors, 0 < p.2 :=
  foldl_tallyStep_pos colors [] (by intro p hp; cases hp)

/-! ### The stable descending sort -/

theorem mem_insertDesc {p q : String × Nat} {l : List (String × Nat)} :
    q ∈ insertDesc p l ↔ q = p ∨ q ∈ l := by
  induction l with
  | nil => simp [insertDesc]
  | cons r rest ih =>
    rw [insertDesc]
    by_cases h : p.2 < r.2
    · rw [if_pos h]
      simp only [List.mem_cons, ih]
      tauto
    · rw [if_neg h]
      exact List.mem_cons

theorem insertDesc_ne_nil (p : String × Nat) :
    ∀ l : List (String × Nat), insertDesc p l ≠ []
  | [] => by simp [insertDesc]
  | q :: rest => by
    rw [insertDesc]
    by_cases h : p.2 < q.2
    · rw [if_pos h]; simp
    · rw [if_neg h]; simp

theorem mem_sortDesc {q : String × Nat} :
    ∀ {l : List (String × Nat)}, q ∈ sortDesc l ↔ q ∈ l
  | [] => Iff.rfl
  | p :: rest => by
    rw [sortDesc, mem_insertDesc, mem_sortDesc, List.mem_cons]

theorem sortDesc_ne_nil : ∀ {l : List (String × Nat)}, l ≠ [] →
    sortDesc l ≠ []
  | [], h => absurd rfl h
  | p :: rest, _ => by
    rw [sortDesc]
    exact insertDesc_ne_nil p (sortDesc rest)

theorem pairwise_insertDesc {p : String × Nat} :
    ∀ {l : List (String × Nat)},
      l.Pairwise (fun a b => b.2 ≤ a.2) →
      (insertDesc p l).Pairwise (fun a b => b.2 ≤ a.2)
  | [], _ => by simp [insertDesc]
  | q :: rest, h => by
    rw [insertDesc]
    obtain ⟨hq, hrest⟩ := List.pairwise_cons.mp h
    by_cases hpq : p.2 < q.2
    · rw [if_pos hpq]
      refine List.pairwise_cons.mpr ⟨?_, pairwise_insertDesc hrest⟩
      intro r hr
      rcases mem_insertDesc.mp hr with hr | hr
      · rw [hr]
        exact Nat.le_of_lt hpq
      · exact hq r hr
    · rw [if_neg hpq]
      refine List.pairwise_cons.mpr ⟨?_, h⟩
      intro r hr
      rcases List.mem_cons.mp hr with hr | hr
      · rw [hr]
        exact Nat.le_of_not_lt hpq
      · exact Nat.le_trans (hq r hr) (Nat.le_of_not_lt hpq)

theorem sortDesc_sorted :
    ∀ l : List (String × Nat), (sortDesc l).Pairwise (fun a b => b.2 ≤ a.2)
  | [] => List.Pairwise.nil
  | _ :: rest => pairwise_insertDesc (sortDesc_sorted rest)

theorem sublist_insertDesc (p : String × Nat) :
    ∀ l : List (String × Nat), List.Sublist l (insertDesc p l)
  | [] => List.nil_sublist _
  | q :: rest => by
    rw [insertDesc]
    by_cases h : p.2 < q.2
    · rw [if_pos h]
      exact List.Sublist.cons₂ q (sublist_insertDesc p rest)
    · rw [if_neg h]
      exact List.Sublist.cons p (List.Sublist.refl _)

theorem insertDesc_pair {x b : String × Nat} :
    ∀ {l : List (String × Nat)},
      l.Pairwise (fun a b => b.2 ≤ a.2) → b ∈ l → b.2 ≤ x.2 →
      List.Sublist [x, b] (insertDesc x l)
  | [], _, hb, _ => absurd hb (List.not_mem_nil b)
  | q :: rest, hsort, hb, hle => by
    rw [insertDesc]
    obtain ⟨hq, hrest⟩ := List.pairwise_cons.mp hsort
    by_cases h : x.2 < q.2
    · rw [if_pos h]
      rcases List.mem_cons.mp hb with hb | hb
      · exact absurd h (Nat.not_lt.mpr (hb ▸ hle))
      · exact List.Sublist.cons q (insertDesc_pair hrest hb hle)
    · rw [if_neg h]
      exact List.Sublist.cons₂ x (List.singleton_sublist.mpr hb)

theorem sortDesc_stable {a b : String × Nat} :
    ∀ {l : List (String × Nat)}, List.Sublist [a, b] l → b.2 ≤ a.2 →
      List.Sublist [a, b] (sortDesc l) := by
  intro l
  induction l with
  | nil =>
    intro h _
    cases h
  | cons x xs ih =>
    intro h hle
    rw [sortDesc]
    cases h with
    | cons _ h' => exact (ih h' hle).trans (sublist_insertDesc x (sortDesc xs))
    | cons₂ _ h' =>
      exact insertDesc_pair (sortDesc_sorted xs)
        (mem_sortDesc.mpr (List.singleton_sublist.mp h')) hle

/-! ### Tally keys are in first-encounter order -/

/-- The distinct labels of a list, in order of first occurrence. -/
def firstSeen (colors : List String) : List String :=
  colors.foldl (fun seen c => if c ∈ seen then seen else seen ++ [c]) []

theorem dmem_iff_dkeys {κ α : Type} [DecidableEq κ] {d : List (κ × α)}
    {k : κ} : dmem d k = true ↔ k ∈ dkeys d := by
  rw [dmem, List.any_eq_true, dkeys]
  constructor
  · rintro ⟨p, hp, hpk⟩
    exact List.mem_map.mpr ⟨p, hp, by simpa using hpk⟩
  · intro h
    obtain ⟨p, hp, hpk⟩ := List.mem_map.mp h
    exact ⟨p, hp, by simp [hpk]⟩

theorem dkeys_tallyStep (cc : List (String × Nat)) (c : String) :
    dkeys (tallyStep cc c)
      = if c ∈ dkeys cc then dkeys cc else dkeys cc ++ [c] := by
  rw [tallyStep]
  by_cases h : dmem cc c = true
  · rw [if_pos h, if_pos (dmem_iff_dkeys.mp h), dkeys, dkeys, List.map_map]
    refine List.map_congr_left ?_
    intro p _
    by_cases hp : p.1 = c <;> simp [hp]
  · rw [if_neg h, if_neg (fun hk => h (dmem_iff_dkeys.mpr hk)), dkeys, dkeys,
      List.map_append]
    rfl

theorem dkeys_foldl_tallyStep :
    ∀ (cs : List String) (acc : List (String × Nat)),
      dkeys (cs.foldl tallyStep acc)
        = cs.foldl (fun seen c => if c ∈ seen then seen else seen ++ [c])
            (dkeys acc)
  | [], _ => rfl
  | c :: cs, acc => by
    rw [List.foldl_cons, List.foldl_cons,
      dkeys_foldl_tallyStep cs (tallyStep acc c), dkeys_tallyStep]

/-- The tally lists its labels in order of first encounter. -/
theorem tally_keys_firstSeen (colors : List String) :
    dkeys (tally colors) = firstSeen colors :=
  dkeys_foldl_tallyStep colors []

/-! ### C10, C6 and C7 -/

/-- The total count of the sorted tally of a non-empty list is positive. -/
theorem color_count_sum_pos {colors : List String} (h : colors ≠ []) :
    0 < color_count_sum colors := by
  have hne : color_counts colors ≠ [] := by
    rw [color_counts]
    exact sortDesc_ne_nil (tally_ne_nil h)
  rw [color_count_sum]
  cases hcc : color_counts colors with
  | nil => exact absurd hcc hne
  | cons q qs =>
    have hqmem : q ∈ color_counts colors := by
      rw [hcc]
      exact List.mem_cons_self q qs
    have hq : 0 < q.2 := by
      rw [color_counts] at hqmem
      exact tally_counts_pos q (mem_sortDesc.mp hqmem)
    rw [List.map_cons, List.sum_cons]
    exact Nat.lt_of_lt_of_le hq (Nat.le_add_right _ _)

theorem buildIndex_values_ne_nil
    (ec d3592 d12913832 d16891982 : List (Nat × String)) :
    ∀ (uids : List Nat) (idx : List (GTuple × List String)),
      (∀ p ∈ idx, p.2 ≠ []) →
      ∀ p ∈ uids.foldl (fun idx uid =>
        indexAppend idx (subjectTuple d3592 d12913832 d16891982 uid)
          ((dget? ec uid).getD "")) idx, p.2 ≠ []
  | [], _, hinv, p, hp => hinv p hp
  | uid :: rest, idx, hinv, p, hp => by
    refine buildIndex_values_ne_nil ec d3592 d12913832 d16891982 rest
      _ ?_ p hp
    intro q hq
    rcases mem_indexAppend hq with hq' | ⟨colors₀, _, _, hval⟩ | hnew
    · exact hinv q hq'
    · rw [hval]
      simp
    · rw [hnew]
      simp

/-- C10: every bucket of `genotypes_to_color` is a non-empty list (an entry
is only ever created with its first label), so whenever the caller's tuple
lookup succeeds the total match count is strictly positive and the share
computation `count/total` never divides by zero. -/
theorem c10_buckets_nonempty_and_sum_pos (ecUsers : List EyeColorUser)
    (r3592 r12913832 r16891982 : List GenoRecord) (g : GTuple)
    (colors : List String)
    (h : dget? (genotypes_to_color ecUsers r3592 r12913832 r16891982) g
      = some colors) :
    colors ≠ [] ∧ 0 < color_count_sum colors := by
  have hmem := dget?_mem h
  simp only [genotypes_to_color, buildIndex] at hmem
  have hne : colors ≠ [] :=
    buildIndex_values_ne_nil (eyecolor_by_uid ecUsers)
      (genotype_by_uid r3592) (genotype_by_uid r12913832)
      (genotype_by_uid r16891982) _ [] (fun q hq => absurd hq
        (List.not_mem_nil q)) (g, colors) hmem
  exact ⟨hne, color_count_sum_pos hne⟩

/-- Witness for C10 at the one-subject datasets. -/
theorem c10_buckets_nonempty_and_sum_pos_witness :
    ["brown"] ≠ ([] : List String) ∧ 0 < color_count_sum ["brown"] :=
  c10_buckets_nonempty_and_sum_pos [⟨42, "Brown"⟩] [⟨42, ["CC"]⟩]
    [⟨42, ["AG"]⟩] [⟨42, ["GG"]⟩] ("CC", "AG", "GG") ["brown"] (by rfl)

theorem sum_map_div (S : ℚ) :
    ∀ l : List (String × Nat),
      (l.map (fun p => (p.2 : ℚ) / S)).sum
        = ((l.map (fun p => (p.2 : ℚ))).sum) / S
  | [] => by simp
  | p :: rest => by
    rw [List.map_cons, List.sum_cons, List.map_cons, List.sum_cons,
      sum_map_div S rest, add_div]

theorem sum_map_cast :
    ∀ l : List (String × Nat),
      (l.map (fun p => (p.2 : ℚ))).sum = (((l.map (fun p => p.2)).sum : ℕ) : ℚ)
  | [] => by simp
  | p :: rest => by
    rw [List.map_cons, List.sum_cons, List.map_cons, List.sum_cons,
      sum_map_cast rest]
    push_cast
    ring

/-- C6: for every non-empty matched-color list, the fractional shares
`count/total` of `color_count_percentages` (the float divisions taken over
`ℚ`) sum to exactly 1. -/
theorem c6_shares_sum_to_one (colors : List String) (h : colors ≠ []) :
    ((color_count_percentages colors).map (fun p => p.2)).sum = 1 := by
  rw [color_count_percentages, List.map_map]
  have hcomp : ((fun p : String × ℚ => p.2) ∘ fun p : String × Nat =>
      (p.1, (p.2 : ℚ) / (color_count_sum colors : ℚ)))
      = fun p : String × Nat => (p.2 : ℚ) / (color_count_sum colors : ℚ) := rfl
  rw [hcomp, sum_map_div, sum_map_cast]
  have hsum : ((color_counts colors).map (fun p => p.2)).sum
      = color_count_sum colors := rfl
  rw [hsum]
  exact div_self (Nat.cast_ne_zero.mpr
    (Nat.pos_iff_ne_zero.mp (color_count_sum_pos h)))

/-- Witness for C6 at the list `["brown", "blue", "brown"]`. -/
theorem c6_shares_sum_to_one_witness :
    ((color_count_percentages ["brown", "blue", "brown"]).map
      (fun p => p.2)).sum = 1 :=
  c6_shares_sum_to_one ["brown", "blue", "brown"] (by simp)

/-- C7: the sorted `color_counts` list is non-increasing by raw count, the
sort is stable — any two tally entries whose counts satisfy `b.2 ≤ a.2`
(in particular, equal counts) keep their tally order — and the tally lists
its labels in order of first encounter. -/
theorem c7_distribution_sorted_and_stable (colors : List String) :
    (color_counts colors).Pairwise (fun a b => b.2 ≤ a.2) ∧
    (∀ a b : String × Nat, List.Sublist [a, b] (tally colors) → b.2 ≤ a.2 →
      List.Sublist [a, b] (color_counts colors)) ∧
    dkeys (tally colors) = firstSeen colors :=
  ⟨sortDesc_sorted _, fun _ _ h hle => sortDesc_stable h hle,
    tally_keys_firstSeen colors⟩

/-- Witness for C7: in `["blue", "green", "blue", "red"]` the labels
"green" and "red" tie at count 1 and keep their first-encounter order in
the sorted output. -/
theorem c7_distribution_sorted_and_stable_witness :
    List.Sublist [("green", 1), ("red", 1)]
      (color_counts ["blue", "green", "blue", "red"]) :=
  (c7_distribution_sorted_and_stable ["blue", "green", "blue", "red"]).2.1
    ("green", 1) ("red", 1) (by decide) (by decide)

end EyeColor
